import Mathlib

/-!
# PRU main.c: allocator, console IO, timers and startup

A shallow embedding of `src/pru/main.c` (Klipper firmware for the PRU
co-processor).  Pointers and `size_t` are 32-bit machine words on this target;
they are modelled as natural numbers with every addition and multiplication
reduced modulo `WORD = 2 ^ 32`.  `shutdown(...)` does not return; it is modelled
as the `Outcome.shutdown` result carrying the reason string.
-/

namespace Pru

/-! ## Machine model -/

/-- Number of values of a 32-bit machine word (pointers, `size_t`, `uint32_t`). -/
def WORD : Nat := 2 ^ 32

/-- Result of running a C function that may call the non-returning `shutdown`,
or whose loop may fail to finish within the fuel given to the model. -/
inductive Outcome (α : Type) where
  /-- The function returned normally. -/
  | ret (a : α)
  /-- The function called `shutdown(msg)`, which never returns. -/
  | shutdown (msg : String)
  /-- The loop was still running when the fuel ran out. -/
  | out_of_fuel

/-! ## Allocator (main.c lines 166-200) -/

/-- `#define STACK_SIZE 256`. -/
def STACK_SIZE : Nat := 256

/-- `#define END_MEM ((void*)(8*1024 - STACK_SIZE))`. -/
def END_MEM : Nat := 8 * 1024 - STACK_SIZE

/-- Allocator state: the static cursor `heap_ptr` and the data memory, one byte
per address. -/
structure Heap where
  heap_ptr : Nat
  mem : Nat → Nat

/-- The C library `memset(s, c, n)`: the `n` bytes starting at address `s`
(addresses taken modulo `WORD`) become `c`. -/
def memset (mem : Nat → Nat) (s c n : Nat) : Nat → Nat :=
  fun a => if (a + WORD - s) % WORD < n then c else mem a

/-- Embedding of `alloc_chunk(size)`:
```
if (heap_ptr + size > END_MEM) shutdown("alloc_chunk failed");
void *data = heap_ptr; heap_ptr += size; memset(data, 0, size); return data;
```
Returns the block address together with the new allocator state. -/
def alloc_chunk (size : Nat) (h : Heap) : Outcome (Nat × Heap) :=
  if (h.heap_ptr + size) % WORD > END_MEM then
    .shutdown "alloc_chunk failed"
  else
    let data := h.heap_ptr
    .ret (data, { heap_ptr := (h.heap_ptr + size) % WORD,
                  mem := memset h.mem data 0 size })

/-- The counting loop of `alloc_chunks`:
```
for (; can_alloc <= count && p + size <= END_MEM; can_alloc++, p += size) ;
```
run from the loop state `(can_alloc, p)`; yields the final `can_alloc`, or
`none` when the loop is still running after `fuel` tests of its condition. -/
def alloc_chunks_loop (size count : Nat) : Nat → Nat → Nat → Option Nat
  | 0, _, _ => none
  | fuel + 1, can_alloc, p =>
    if can_alloc ≤ count ∧ (p + size) % WORD ≤ END_MEM then
      alloc_chunks_loop size count fuel ((can_alloc + 1) % WORD) ((p + size) % WORD)
    else
      some can_alloc

/-- Embedding of `alloc_chunks(size, count, &avail)`:
```
size_t can_alloc = 0; void *p = heap_ptr;
for (...) ;
if (!can_alloc) shutdown("alloc_chunks failed");
*avail = can_alloc;
return alloc_chunk(size * can_alloc);
```
Returns the block address, the value stored in `*avail`, and the new state. -/
def alloc_chunks (fuel size count : Nat) (h : Heap) : Outcome (Nat × Nat × Heap) :=
  match alloc_chunks_loop size count fuel 0 h.heap_ptr with
  | none => .out_of_fuel
  | some can_alloc =>
    if can_alloc = 0 then
      .shutdown "alloc_chunks failed"
    else
      match alloc_chunk ((size * can_alloc) % WORD) h with
      | .ret (data, h') => .ret (data, can_alloc, h')
      | .shutdown msg => .shutdown msg
      | .out_of_fuel => .out_of_fuel

/-- One allocator call in a sequence of calls. -/
inductive AllocCall where
  | chunk (size : Nat)
  | chunks (size count : Nat)

/-- A block handed out by the allocator: its address and its length in bytes. -/
structure Block where
  ptr : Nat
  bytes : Nat
deriving DecidableEq, Repr

/-- Run a sequence of `alloc_chunk` / `alloc_chunks` calls, collecting the
returned blocks in call order; stops at the first call that does not return. -/
def run_allocs (fuel : Nat) : List AllocCall → Heap → Outcome (List Block × Heap)
  | [], h => .ret ([], h)
  | .chunk size :: rest, h =>
    match alloc_chunk size h with
    | .ret (data, h') =>
      match run_allocs fuel rest h' with
      | .ret (bs, h'') => .ret (⟨data, size⟩ :: bs, h'')
      | .shutdown msg => .shutdown msg
      | .out_of_fuel => .out_of_fuel
    | .shutdown msg => .shutdown msg
    | .out_of_fuel => .out_of_fuel
  | .chunks size count :: rest, h =>
    match alloc_chunks fuel size count h with
    | .ret (data, avail, h') =>
      match run_allocs fuel rest h' with
      | .ret (bs, h'') => .ret (⟨data, (size * avail) % WORD⟩ :: bs, h'')
      | .shutdown msg => .shutdown msg
      | .out_of_fuel => .out_of_fuel
    | .shutdown msg => .shutdown msg
    | .out_of_fuel => .out_of_fuel

/-- Two blocks share an address (blocks taken as plain address ranges). -/
def Block.overlaps (a b : Block) : Prop :=
  a.ptr < b.ptr + b.bytes ∧ b.ptr < a.ptr + a.bytes

instance (a b : Block) : Decidable (a.overlaps b) := by
  unfold Block.overlaps; infer_instance

/-! ## Console IO (main.c lines 98-151) -/

/-- Build-time constants that main.c takes from `internal.h` and `command.h`,
which are not among the sources; they are parameters of the embedding. -/
structure Config where
  IEP_EVENT : Nat
  KICK_PRU0_EVENT : Nat
  KICK_PRU1_EVENT : Nat
  WAKE_PRU1_IRQ : Nat
  R31_IRQ_OFFSET : Nat
  R31_WRITE_IRQ_SELECT : Nat
  R31_WRITE_IRQ_OFFSET : Nat
  HF_IN_SHUTDOWN : Nat
  SIGNAL_PRU0_WAITING : Nat
  SIGNAL_PRU1_READY : Nat
  /-- `ARRAY_SIZE(SHARED_MEM->send_data)`: the number of response slots. -/
  send_slots : Nat
  /-- `sizeof(SHARED_MEM->send_data[0].data)`: the byte capacity of a slot. -/
  data_size : Nat
deriving DecidableEq, Repr

/-- One response slot `SHARED_MEM->send_data[i]`: `count` and the `data` bytes. -/
structure shared_response_buffer where
  count : Nat
  data : List Nat
deriving DecidableEq, Repr

/-- The fields of `SHARED_MEM` that main.c reads or writes.  Pointers are
addresses, with 0 the null pointer. -/
structure shared_mem where
  signal : Nat
  next_command : Nat
  next_command_args : List Nat
  send_push_pos : Nat
  send_data : List shared_response_buffer
  command_index : Nat
  command_index_size : Nat
  shutdown_handler : Nat
deriving DecidableEq, Repr

/-- The encoder descriptor `struct command_encoder` (declared in `command.h`);
main.c reads only its `max_size` field, `msg_id` stands for the rest. -/
structure command_encoder where
  msg_id : Nat
  max_size : Nat
deriving DecidableEq, Repr

/-- Observable actions of `console_sendf`, recorded in program order. -/
inductive Effect where
  /-- `command_encodef` was called and left `body` in `send_data[slot].data`. -/
  | encodef (slot : Nat) (body : List Nat)
  /-- `writel(&SHARED_MEM->send_data[slot].count, value)`. -/
  | writel_count (slot value : Nat)
  /-- `write_r31(value)`: the kick signal to PRU0. -/
  | write_r31 (value : Nat)
  /-- `SHARED_MEM->send_push_pos = value`. -/
  | store_send_push_pos (value : Nat)
deriving DecidableEq, Repr

/-- The value written to r31 to kick PRU0:
`R31_WRITE_IRQ_SELECT | (KICK_PRU0_EVENT - R31_WRITE_IRQ_OFFSET)`. -/
def kick_pru0 (cfg : Config) : Nat :=
  cfg.R31_WRITE_IRQ_SELECT ||| (cfg.KICK_PRU0_EVENT - cfg.R31_WRITE_IRQ_OFFSET)

/-- Embedding of `console_sendf(ce, args)`.  The external encoder
`command_encodef(buf, max_size, ce, args)` is a parameter: from the old
contents of `buf` it yields the new contents and the message length.  The
result is the new shared memory and the actions performed, in order; `none`
stands for the undefined behaviour of indexing `send_data` out of bounds. -/
def console_sendf (cfg : Config)
    (command_encodef : List Nat → Nat → command_encoder → List Nat → List Nat × Nat)
    (ce : command_encoder) (args : List Nat) (s : shared_mem) :
    Option (shared_mem × List Effect) :=
  let max_size := ce.max_size
  if max_size > cfg.data_size then
    some (s, [])
  else
    let send_push_pos := s.send_push_pos
    match s.send_data[send_push_pos]? with
    | none => none
    | some slot =>
      if slot.count ≠ 0 then
        some (s, [])
      else
        let enc := command_encodef slot.data max_size ce args
        let msglen := enc.2
        let next := ((send_push_pos + 1) % WORD) % cfg.send_slots
        some ({ s with
                  send_data := s.send_data.set send_push_pos ⟨msglen, enc.1⟩
                  send_push_pos := next },
              [.encodef send_push_pos enc.1, .writel_count send_push_pos msglen,
               .write_r31 (kick_pru0 cfg), .store_send_push_pos next])

/-- Modelled from the spec: the peer core, whose code is not in main.c, marks
slot `i` free after draining it ("count reset to 0 by the consumer"). -/
def peer_free_slot (i : Nat) (s : shared_mem) : shared_mem :=
  match s.send_data[i]? with
  | some b => { s with send_data := s.send_data.set i { b with count := 0 } }
  | none => s

/-! ## Actions recorded for the timer, mailbox and startup code -/

/-- Observable actions of the timer code, `console_task`, `console_shutdown`
and `main`: stores to hardware registers and shared memory, and calls of
external functions, recorded in program order. -/
inductive Action where
  /-- `CT_IEP.TMR_CMP0 = value` (the body of `timer_set`). -/
  | store_TMR_CMP0 (value : Nat)
  /-- `CT_IEP.TMR_CNT = value`. -/
  | store_TMR_CNT (value : Nat)
  /-- `CT_IEP.TMR_CMP_STS = value`. -/
  | store_TMR_CMP_STS (value : Nat)
  /-- `CT_INTC.SECR0 = value`. -/
  | store_SECR0 (value : Nat)
  /-- A call of the external drain `timer_dispatch_many()`. -/
  | timer_dispatch_many
  /-- `__delay_cycles(n)`. -/
  | delay_cycles (n : Nat)
  /-- `cp->func(SHARED_MEM->next_command_args)` for the descriptor at `cp`. -/
  | call_func (cp : Nat) (args : List Nat)
  /-- A call of the external `sched_report_shutdown()`. -/
  | sched_report_shutdown
  /-- `writel(&SHARED_MEM->next_command, value)`. -/
  | writel_next_command (value : Nat)
  /-- `SHARED_MEM->command_index = value`. -/
  | store_command_index (value : Nat)
  /-- `SHARED_MEM->command_index_size = value`. -/
  | store_command_index_size (value : Nat)
  /-- `SHARED_MEM->shutdown_handler = value`. -/
  | store_shutdown_handler (value : Nat)
  /-- `writel(&SHARED_MEM->signal, value)`. -/
  | writel_signal (value : Nat)
  /-- The call of the external scheduler loop `sched_main()`. -/
  | sched_main
deriving DecidableEq, Repr

/-! ## Timers (main.c lines 24-95) -/

/-- The hardware registers main.c touches: the IEP timer's compare register,
counter and latched compare status, the interrupt controller's status/clear
register `SECR0`, and the value `read_r31()` returns. -/
structure Regs where
  TMR_CMP0 : Nat
  TMR_CNT : Nat
  TMR_CMP_STS : Nat
  SECR0 : Nat
  r31 : Nat
deriving DecidableEq, Repr

/-- Modelled from the spec: the hardware register definitions are not among the
sources.  `TMR_CMP_STS` and `SECR0` are status registers that a store clears
("clear the match status", "clear the pending bits"): every bit written as 1
is cleared, every other bit keeps its value. -/
def w1c (old value : Nat) : Nat :=
  old ^^^ (old &&& value)

/-- Embedding of `timer_set(value)`: `CT_IEP.TMR_CMP0 = value`. -/
def timer_set (value : Nat) (r : Regs) : Regs × List Action :=
  ({ r with TMR_CMP0 := value }, [.store_TMR_CMP0 value])

/-- Embedding of `timer_read_time()`: `return CT_IEP.TMR_CNT`. -/
def timer_read_time (r : Regs) : Nat :=
  r.TMR_CNT

/-- Embedding of `_irq_poll()`:
```
if (CT_INTC.SECR0 & (1 << IEP_EVENT)) {
    CT_IEP.TMR_CMP_STS = 0xff;
    uint32_t next = timer_dispatch_many();
    timer_set(next);
}
CT_INTC.SECR0 = (1 << IEP_EVENT) | (1 << KICK_PRU1_EVENT);
```
The external drain `timer_dispatch_many` is a parameter: it yields the next
deadline and the registers as it leaves them. -/
def _irq_poll (cfg : Config) (timer_dispatch_many : Regs → Nat × Regs) (r : Regs) :
    Regs × List Action :=
  let ack := (1 <<< cfg.IEP_EVENT) ||| (1 <<< cfg.KICK_PRU1_EVENT)
  if r.SECR0 &&& (1 <<< cfg.IEP_EVENT) ≠ 0 then
    let r1 := { r with TMR_CMP_STS := w1c r.TMR_CMP_STS 0xff }
    let drained := timer_dispatch_many r1
    let next := drained.1
    let r2 := (timer_set next drained.2).1
    ({ r2 with SECR0 := w1c r2.SECR0 ack },
     [.store_TMR_CMP_STS 0xff, .timer_dispatch_many, .store_TMR_CMP0 next,
      .store_SECR0 ack])
  else
    ({ r with SECR0 := w1c r.SECR0 ack }, [.store_SECR0 ack])

/-- Embedding of `irq_poll()`:
```
if (read_r31() & (1 << (WAKE_PRU1_IRQ + R31_IRQ_OFFSET))) _irq_poll();
``` -/
def irq_poll (cfg : Config) (timer_dispatch_many : Regs → Nat × Regs) (r : Regs) :
    Regs × List Action :=
  if r.r31 &&& (1 <<< (cfg.WAKE_PRU1_IRQ + cfg.R31_IRQ_OFFSET)) ≠ 0 then
    _irq_poll cfg timer_dispatch_many r
  else
    (r, [])

/-- Embedding of `timer_shutdown()`:
```
timer_set(timer_read_time() + 50);
CT_IEP.TMR_CMP_STS = 0xff;
__delay_cycles(4);
CT_INTC.SECR0 = 1 << IEP_EVENT;
``` -/
def timer_shutdown (cfg : Config) (r : Regs) : Regs × List Action :=
  let value := (timer_read_time r + 50) % WORD
  let r1 := (timer_set value r).1
  let r2 := { r1 with TMR_CMP_STS := w1c r1.TMR_CMP_STS 0xff }
  ({ r2 with SECR0 := w1c r2.SECR0 (1 <<< cfg.IEP_EVENT) },
   [.store_TMR_CMP0 value, .store_TMR_CMP_STS 0xff, .delay_cycles 4,
    .store_SECR0 (1 <<< cfg.IEP_EVENT)])

/-- Embedding of `timer_init()`: `CT_IEP.TMR_CNT = 0; timer_shutdown();`. -/
def timer_init (cfg : Config) (r : Regs) : Regs × List Action :=
  let out := timer_shutdown cfg { r with TMR_CNT := 0 }
  (out.1, .store_TMR_CNT 0 :: out.2)

/-! ## Command mailbox (main.c lines 102-120, 146-163) -/

/-- The command descriptor `struct command_parser` (declared in `command.h`):
main.c reads its `flags` and calls its `func`.  A handler receives the
argument buffer and may change shared memory, call `shutdown` or not return. -/
structure command_parser_desc where
  flags : Nat
  func : List Nat → shared_mem → Outcome shared_mem

/-- Embedding of `console_task()`:
```
const struct command_parser *cp = SHARED_MEM->next_command;
if (!cp) return;
barrier();
if (sched_is_shutdown() && !(cp->flags & HF_IN_SHUTDOWN)) {
    sched_report_shutdown();
} else {
    void (*func)(uint32_t*) = cp->func;
    func(SHARED_MEM->next_command_args);
}
writel(&SHARED_MEM->next_command, 0);
```
`deref` reads the descriptor a pointer refers to; `sched_is_shutdown` is the
scheduler's answer and `sched_report_shutdown` its callback, both external.
The result is the list of actions performed and how the call ended. -/
def console_task (cfg : Config) (deref : Nat → command_parser_desc)
    (sched_is_shutdown : Bool) (sched_report_shutdown : shared_mem → Outcome shared_mem)
    (s : shared_mem) : List Action × Outcome shared_mem :=
  let cp := s.next_command
  if cp = 0 then
    ([], .ret s)
  else if sched_is_shutdown = true ∧ (deref cp).flags &&& cfg.HF_IN_SHUTDOWN = 0 then
    match sched_report_shutdown s with
    | .ret s1 =>
      ([.sched_report_shutdown, .writel_next_command 0],
       .ret { s1 with next_command := 0 })
    | .shutdown msg => ([.sched_report_shutdown], .shutdown msg)
    | .out_of_fuel => ([.sched_report_shutdown], .out_of_fuel)
  else
    match (deref cp).func s.next_command_args s with
    | .ret s1 =>
      ([.call_func cp s.next_command_args, .writel_next_command 0],
       .ret { s1 with next_command := 0 })
    | .shutdown msg => ([.call_func cp s.next_command_args], .shutdown msg)
    | .out_of_fuel => ([.call_func cp s.next_command_args], .out_of_fuel)

/-- Embedding of `console_shutdown()`: `writel(&SHARED_MEM->next_command, 0);`. -/
def console_shutdown (s : shared_mem) : shared_mem × List Action :=
  ({ s with next_command := 0 }, [.writel_next_command 0])

/-- Embedding of `shutdown_handler(args)`: `shutdown("Request from PRU0");`. -/
def shutdown_handler (_args : List Nat) (_s : shared_mem) : Outcome shared_mem :=
  .shutdown "Request from PRU0"

/-- Embedding of `shutdown_request = { .func = shutdown_handler }`: every field
not named in the initialiser, `flags` among them, is zero. -/
def shutdown_request : command_parser_desc :=
  { flags := 0, func := shutdown_handler }

/-- What `console_task` leaves once the callee it invoked has ended with
outcome `o`: when the callee returned, the shared memory it left with the
mailbox cleared; otherwise the callee's own ending. -/
def mailbox_cleared (o : Outcome shared_mem) : Outcome shared_mem :=
  match o with
  | .ret s1 => .ret { s1 with next_command := 0 }
  | .shutdown msg => .shutdown msg
  | .out_of_fuel => .out_of_fuel

/-- The actions of `console_task` that follow its callee, whose outcome is `o`:
the store of 0 to the mailbox when the callee returned, nothing otherwise. -/
def mailbox_store_after (o : Outcome shared_mem) : List Action :=
  match o with
  | .ret _ => [.writel_next_command 0]
  | .shutdown _ => []
  | .out_of_fuel => []

/-- The calls `console_task` makes to a handler or to the shutdown-report
callback, in order. -/
def calls_made (t : List Action) : List Action :=
  t.filter fun a =>
    match a with
    | .call_func _ _ => true
    | .sched_report_shutdown => true
    | _ => false

/-! ## Startup (main.c lines 225-239) -/

/-- The polling loop of `main`:
```
while (readl(&SHARED_MEM->signal) != SIGNAL_PRU0_WAITING) ;
```
`signal_at i` is the value the `i`-th read returns (the peer writes the
field).  Yields the index of the read that ends the loop, or `none` when the
loop is still polling after `fuel` reads. -/
def main_wait (cfg : Config) (signal_at : Nat → Nat) : Nat → Nat → Option Nat
  | 0, _ => none
  | fuel + 1, i =>
    if signal_at i ≠ cfg.SIGNAL_PRU0_WAITING then
      main_wait cfg signal_at fuel (i + 1)
    else
      some i

/-- Embedding of `main()` up to its call of the external `sched_main()`:
```
while (readl(&SHARED_MEM->signal) != SIGNAL_PRU0_WAITING) ;
SHARED_MEM->command_index = command_index;
SHARED_MEM->command_index_size = command_index_size;
SHARED_MEM->shutdown_handler = &shutdown_request;
writel(&SHARED_MEM->signal, SIGNAL_PRU1_READY);
sched_main();
```
`command_index`, `command_index_size` and `shutdown_request_addr` are the
link-time values stored.  The result lists the shared-memory states in order
(the state the last poll saw, then the state after each store) and the actions
performed; `none` when the loop is still polling after `fuel` reads. -/
def main (cfg : Config) (command_index command_index_size shutdown_request_addr : Nat)
    (fuel : Nat) (signal_at : Nat → Nat) (s : shared_mem) :
    Option (List shared_mem × List Action) :=
  match main_wait cfg signal_at fuel 0 with
  | none => none
  | some i =>
    let s0 := { s with signal := signal_at i }
    let s1 := { s0 with command_index := command_index }
    let s2 := { s1 with command_index_size := command_index_size }
    let s3 := { s2 with shutdown_handler := shutdown_request_addr }
    let s4 := { s3 with signal := cfg.SIGNAL_PRU1_READY }
    some ([s0, s1, s2, s3, s4],
          [.store_command_index command_index,
           .store_command_index_size command_index_size,
           .store_shutdown_handler shutdown_request_addr,
           .writel_signal cfg.SIGNAL_PRU1_READY, .sched_main])

/-! ## Response queue under repeated use -/

/-- One step of the response queue's life: a `console_sendf` call by this core,
or the peer freeing a slot. -/
inductive QueueStep where
  | sendf (ce : command_encoder) (args : List Nat)
  | peer_free (slot : Nat)

/-- Run a sequence of queue steps; `none` as soon as a `console_sendf` call
indexes `send_data` out of bounds. -/
def run_queue (cfg : Config)
    (command_encodef : List Nat → Nat → command_encoder → List Nat → List Nat × Nat) :
    List QueueStep → shared_mem → Option shared_mem
  | [], s => some s
  | .sendf ce args :: rest, s =>
    match console_sendf cfg command_encodef ce args s with
    | none => none
    | some out => run_queue cfg command_encodef rest out.1
  | .peer_free i :: rest, s => run_queue cfg command_encodef rest (peer_free_slot i s)

/-! ## Concrete inputs used to instantiate the theorems -/

/-- A small configuration: two response slots of four bytes each. -/
def sample_config : Config :=
  { IEP_EVENT := 7, KICK_PRU0_EVENT := 18, KICK_PRU1_EVENT := 19,
    WAKE_PRU1_IRQ := 1, R31_IRQ_OFFSET := 30, R31_WRITE_IRQ_SELECT := 32,
    R31_WRITE_IRQ_OFFSET := 16, HF_IN_SHUTDOWN := 1,
    SIGNAL_PRU0_WAITING := 4025479151, SIGNAL_PRU1_READY := 2880154539,
    send_slots := 2, data_size := 4 }

/-- An encoder that writes the argument words over the start of the buffer
and returns how many it wrote. -/
def sample_encodef (buf : List Nat) (_max_size : Nat) (_ce : command_encoder)
    (args : List Nat) : List Nat × Nat :=
  (args ++ buf.drop args.length, args.length)

/-- Shared memory whose two response slots are both occupied, with
`send_push_pos = 0`. -/
def sample_full : shared_mem :=
  { signal := 2880154539, next_command := 0, next_command_args := [],
    send_push_pos := 0,
    send_data := [⟨2, [1, 2, 0, 0]⟩, ⟨3, [3, 4, 5, 0]⟩],
    command_index := 256, command_index_size := 8, shutdown_handler := 512 }

/-- Registers with both the timer event and the kick event pending, the
interrupt line to PRU1 asserted, and the counter at 1000. -/
def sample_regs : Regs :=
  { TMR_CMP0 := 0, TMR_CNT := 1000, TMR_CMP_STS := 1,
    SECR0 := (1 <<< 7) ||| (1 <<< 19), r31 := 1 <<< 31 }

/-- A drain that reports the deadline `counter + 200` and leaves the registers
as they are. -/
def sample_drain (r : Regs) : Nat × Regs :=
  (r.TMR_CNT + 200, r)

/-- A handler that records its first argument word in `command_index_size`
and returns. -/
def sample_handler (args : List Nat) (s : shared_mem) : Outcome shared_mem :=
  .ret { s with command_index_size := args.headD 0 }

/-- Descriptor memory: `shutdown_request` lives at address 512, a descriptor
flagged `HF_IN_SHUTDOWN` at 520, and an unflagged one everywhere else. -/
def sample_deref (cp : Nat) : command_parser_desc :=
  if cp = 512 then shutdown_request
  else if cp = 520 then { flags := 1, func := sample_handler }
  else { flags := 0, func := sample_handler }

/-- A shutdown-report callback that returns without touching shared memory. -/
def sample_report (s : shared_mem) : Outcome shared_mem :=
  .ret s

/-- Shared memory with the command at address `cp` posted in the mailbox. -/
def sample_posted (cp : Nat) : shared_mem :=
  { sample_full with next_command := cp, next_command_args := [7, 8] }

/-! ## Allocator: auxiliary facts -/

/-- In the range where no pointer addition wraps, the counting loop stops at
`min (count + 1) (can_alloc + floor((END_MEM - p) / size))`. -/
theorem alloc_chunks_loop_eq (size count : Nat) (hsize : 1 ≤ size)
    (hnowrap : size ≤ END_MEM) :
    ∀ (fuel c p : Nat), p ≤ END_MEM → c ≤ count + 1 →
      c + (END_MEM - p) / size < WORD → (END_MEM - p) / size < fuel →
      alloc_chunks_loop size count fuel c p
        = some (min (count + 1) (c + (END_MEM - p) / size)) := by
  intro fuel
  have hE : END_MEM = 7936 := by decide
  have hW : WORD = 4294967296 := by decide
  induction fuel with
  | zero => intro c p _ _ _ h; exact absurd h (Nat.not_lt_zero _)
  | succ n ih =>
    intro c p hp hc hw hf
    have hmod : (p + size) % WORD = p + size := Nat.mod_eq_of_lt (by omega)
    unfold alloc_chunks_loop
    rw [hmod]
    by_cases hfit : p + size ≤ END_MEM
    · have hdiv : (END_MEM - p) / size = (END_MEM - (p + size)) / size + 1 := by
        rw [Nat.div_eq_sub_div (by omega) (by omega)]
        congr 2
        omega
      have ih1 := ih (c + 1) (p + size) hfit
      rw [hdiv] at hw hf ⊢
      generalize (END_MEM - (p + size)) / size = k at hw hf ih1 ⊢
      by_cases hcc : c ≤ count
      · rw [if_pos ⟨hcc, hfit⟩]
        have hc1 : (c + 1) % WORD = c + 1 := Nat.mod_eq_of_lt (by omega)
        rw [hc1, ih1 (by omega) (by omega) (by omega)]
        congr 1
        omega
      · rw [if_neg (fun h => hcc h.1)]
        congr 1
        omega
    · have hdiv : (END_MEM - p) / size = 0 := Nat.div_eq_of_lt (by omega)
      rw [if_neg (fun h => hfit h.2), hdiv]
      congr 1
      omega

/-- In the range where no pointer addition wraps (`size ≤ END_MEM - heap_ptr`),
`alloc_chunks` returns, reports `min (count + 1) (floor(remaining / size))` and
advances the cursor by that many items. -/
theorem alloc_chunks_eq (fuel size count : Nat) (h : Heap) (hsize : 1 ≤ size)
    (hfit : size ≤ END_MEM - h.heap_ptr)
    (hfuel : (END_MEM - h.heap_ptr) / size < fuel) :
    alloc_chunks fuel size count h
      = .ret (h.heap_ptr, min (count + 1) ((END_MEM - h.heap_ptr) / size),
          { heap_ptr := h.heap_ptr
              + size * min (count + 1) ((END_MEM - h.heap_ptr) / size),
            mem := memset h.mem h.heap_ptr 0
              (size * min (count + 1) ((END_MEM - h.heap_ptr) / size)) }) := by
  have hE : END_MEM = 7936 := by decide
  have hW : WORD = 4294967296 := by decide
  have hk1 : 1 ≤ (END_MEM - h.heap_ptr) / size := Nat.div_pos hfit hsize
  have hkE : (END_MEM - h.heap_ptr) / size ≤ END_MEM - h.heap_ptr :=
    Nat.div_le_self _ _
  have hmul : size * ((END_MEM - h.heap_ptr) / size) ≤ END_MEM - h.heap_ptr :=
    Nat.mul_div_le _ _
  have hloop := alloc_chunks_loop_eq size count hsize (by omega) fuel 0 h.heap_ptr
    (by omega) (by omega) (by omega) hfuel
  rw [Nat.zero_add] at hloop
  have hmin : size * min (count + 1) ((END_MEM - h.heap_ptr) / size)
      ≤ END_MEM - h.heap_ptr :=
    le_trans (Nat.mul_le_mul_left size (min_le_right _ _)) hmul
  have hpos : min (count + 1) ((END_MEM - h.heap_ptr) / size) ≠ 0 := by
    have : 1 ≤ min (count + 1) ((END_MEM - h.heap_ptr) / size) :=
      le_min (by omega) hk1
    omega
  generalize min (count + 1) ((END_MEM - h.heap_ptr) / size) = k at hloop hmin hpos ⊢
  generalize hb : size * k = b at hmin ⊢
  have hb1 : b % WORD = b := Nat.mod_eq_of_lt (by omega)
  have hb2 : (h.heap_ptr + b) % WORD = h.heap_ptr + b := Nat.mod_eq_of_lt (by omega)
  unfold alloc_chunks
  rw [hloop]
  simp only [hpos, if_false, alloc_chunk, hb, hb1, hb2]
  rw [if_neg (by omega)]

/-- After `memset(s, 0, n)` each of the `n` bytes from `s` on reads zero. -/
theorem memset_zero (mem : Nat → Nat) (s n i : Nat) (hs : s < WORD)
    (hn : n ≤ WORD) (hi : i < n) : memset mem s 0 n ((s + i) % WORD) = 0 := by
  have hW : WORD = 4294967296 := by decide
  rw [hW] at hs hn
  have hidx : ((s + i) % 4294967296 + 4294967296 - s) % 4294967296 = i := by omega
  simp only [memset, hW, hidx, hi, if_true]

/-- Bytes outside the block are left alone by `memset`. -/
theorem memset_other (mem : Nat → Nat) (s c n a : Nat)
    (ha : ¬ (a + WORD - s) % WORD < n) : memset mem s c n a = mem a := by
  simp only [memset, ha, if_false]

/-- Where `heap_ptr + size` does not wrap, `alloc_chunk` halts exactly when the
remaining space is smaller than `size`. -/
theorem alloc_chunk_shutdown_iff_of_no_wrap (size : Nat) (h : Heap)
    (hp : h.heap_ptr ≤ END_MEM) (hnowrap : h.heap_ptr + size < WORD) :
    alloc_chunk size h = .shutdown "alloc_chunk failed"
      ↔ END_MEM - h.heap_ptr < size := by
  have hmod : (h.heap_ptr + size) % WORD = h.heap_ptr + size :=
    Nat.mod_eq_of_lt hnowrap
  unfold alloc_chunk
  rw [hmod]
  by_cases hlt : END_MEM - h.heap_ptr < size
  · rw [if_pos (by omega)]
    exact ⟨fun _ => hlt, fun _ => rfl⟩
  · rw [if_neg (by omega)]
    exact ⟨fun hc => (by cases hc), fun hc => absurd hc hlt⟩

/-- Where `heap_ptr + size` does not wrap and the request fits, `alloc_chunk`
returns the old cursor and advances the cursor by exactly `size`. -/
theorem alloc_chunk_eq_of_fits (size : Nat) (h : Heap)
    (hfit : h.heap_ptr + size ≤ END_MEM) :
    alloc_chunk size h
      = .ret (h.heap_ptr, { heap_ptr := h.heap_ptr + size,
                            mem := memset h.mem h.heap_ptr 0 size }) := by
  have hE : END_MEM = 7936 := by decide
  have hW : WORD = 4294967296 := by decide
  have hmod : (h.heap_ptr + size) % WORD = h.heap_ptr + size :=
    Nat.mod_eq_of_lt (by omega)
  unfold alloc_chunk
  rw [hmod, if_neg (by omega)]

/-- Whenever `alloc_chunk` returns, the cursor it leaves is at most `END_MEM`. -/
theorem alloc_chunk_cursor_le_END_MEM (size d : Nat) (h h' : Heap)
    (hret : alloc_chunk size h = .ret (d, h')) : h'.heap_ptr ≤ END_MEM := by
  unfold alloc_chunk at hret
  by_cases hgt : (h.heap_ptr + size) % WORD > END_MEM
  · rw [if_pos hgt] at hret; cases hret
  · rw [if_neg hgt] at hret
    cases hret
    exact Nat.le_of_not_gt hgt

/-! ## Allocator: the claims -/

/-- C4: when fewer than `count` items of `size` bytes fit in the remaining heap
but at least one does, `alloc_chunks` returns without halting, reports exactly
`floor(remaining / size)` and advances the cursor by that count times `size`;
the returned bytes are zeroed by the `memset` of `alloc_chunk`. -/
theorem alloc_chunks_fewer_fit (fuel size count : Nat) (h : Heap)
    (hone : 1 ≤ (END_MEM - h.heap_ptr) / size)
    (hfew : (END_MEM - h.heap_ptr) / size < count)
    (hfuel : (END_MEM - h.heap_ptr) / size < fuel) :
    alloc_chunks fuel size count h
      = .ret (h.heap_ptr, (END_MEM - h.heap_ptr) / size,
          { heap_ptr := h.heap_ptr + (END_MEM - h.heap_ptr) / size * size,
            mem := memset h.mem h.heap_ptr 0
              ((END_MEM - h.heap_ptr) / size * size) }) := by
  have hsize : 1 ≤ size := by
    rcases Nat.eq_zero_or_pos size with h0 | h0
    · rw [h0, Nat.div_zero] at hone; omega
    · exact h0
  have hfit : size ≤ END_MEM - h.heap_ptr := by
    by_contra hlt
    rw [Nat.div_eq_of_lt (by omega)] at hone
    omega
  have hmin : min (count + 1) ((END_MEM - h.heap_ptr) / size)
      = (END_MEM - h.heap_ptr) / size := min_eq_right (by omega)
  rw [alloc_chunks_eq fuel size count h hsize hfit hfuel, hmin, Nat.mul_comm]

/-- C4, the worked example: with 60 bytes remaining, `size = 8` and
`count = 10`, `alloc_chunks` reports 7, consumes 56 bytes and leaves 4. -/
theorem alloc_chunks_fewer_fit_witness :
    (1 ≤ (END_MEM - (END_MEM - 60)) / 8 ∧ (END_MEM - (END_MEM - 60)) / 8 < 10)
    ∧ alloc_chunks 8 8 10 ⟨END_MEM - 60, fun _ => 255⟩
        = .ret (END_MEM - 60, 7,
            { heap_ptr := END_MEM - 60 + 56,
              mem := memset (fun _ => 255) (END_MEM - 60) 0 56 })
    ∧ END_MEM - (END_MEM - 60 + 56) = 4 :=
  ⟨by decide,
   alloc_chunks_fewer_fit 8 8 10 ⟨END_MEM - 60, fun _ => 255⟩
     (by decide) (by decide) (by decide),
   by decide⟩

/-- C1 (fails on the code): with 60 bytes remaining, `size = 8` and
`count = 2` the loop test `can_alloc <= count` lets the counter reach 3, so
`alloc_chunks` stores 3 in `*avail` and hands out 24 bytes, although
`min(count, floor(remaining / size)) = 2`. -/
theorem alloc_chunks_reports_more_than_count :
    alloc_chunks 8 8 2 ⟨END_MEM - 60, fun _ => 255⟩
        = .ret (END_MEM - 60, 3,
            { heap_ptr := END_MEM - 60 + 24,
              mem := memset (fun _ => 255) (END_MEM - 60) 0 24 })
    ∧ min 2 ((END_MEM - (END_MEM - 60)) / 8) = 2 :=
  ⟨alloc_chunks_eq 8 8 2 ⟨END_MEM - 60, fun _ => 255⟩ (by decide) (by decide)
     (by decide), by decide⟩

/-- C2 (fails on the code): with the cursor at 4096 and `size = 2^32 - 1` the
sum `heap_ptr + size` wraps to 4095, the test against `END_MEM` passes and
`alloc_chunk` returns instead of halting, although only 3840 bytes remain; the
cursor ends at 4095, one byte below where it was. -/
theorem alloc_chunk_wrapped_size_returns :
    alloc_chunk (WORD - 1) ⟨4096, fun _ => 255⟩
        = .ret (4096, { heap_ptr := 4095,
                        mem := memset (fun _ => 255) 4096 0 (WORD - 1) })
    ∧ END_MEM - 4096 < WORD - 1 ∧ WORD - 1 < WORD :=
  ⟨rfl, by decide, by decide⟩

/-- C3 (fails on the code): from the cursor 4096 the calls `alloc_chunk(100)`,
`alloc_chunk(2^32 - 100)`, `alloc_chunk(100)` all return.  The second block
reaches far above `END_MEM` although its request did not fit, it winds the
cursor back to 4096, and the third block is the first block again. -/
theorem run_allocs_hands_out_block_twice :
    run_allocs 0 [.chunk 100, .chunk (WORD - 100), .chunk 100] ⟨4096, fun _ => 255⟩
        = .ret ([⟨4096, 100⟩, ⟨4196, WORD - 100⟩, ⟨4096, 100⟩],
            { heap_ptr := 4196,
              mem := memset (memset (memset (fun _ => 255) 4096 0 100)
                       4196 0 (WORD - 100)) 4096 0 100 })
    ∧ Block.overlaps ⟨4096, 100⟩ ⟨4096, 100⟩
    ∧ END_MEM < 4196 + (WORD - 100)
    ∧ END_MEM - 4196 < WORD - 100 :=
  ⟨by simp [run_allocs, alloc_chunk, WORD, END_MEM, STACK_SIZE],
   by decide, by decide, by decide⟩

/-- C5 (fails on the code): with 60 bytes remaining, `size = 8` and
`count = 0`, the number of items that may be allocated is
`min(0, floor(60 / 8)) = 0`, yet `alloc_chunks` does not halt: the loop test
`0 <= 0` passes once, it reports 1 and hands out 8 bytes. -/
theorem alloc_chunks_zero_count_returns :
    alloc_chunks 8 8 0 ⟨END_MEM - 60, fun _ => 255⟩
        = .ret (END_MEM - 60, 1,
            { heap_ptr := END_MEM - 60 + 8,
              mem := memset (fun _ => 255) (END_MEM - 60) 0 8 })
    ∧ min 0 ((END_MEM - (END_MEM - 60)) / 8) = 0 :=
  ⟨alloc_chunks_eq 8 8 0 ⟨END_MEM - 60, fun _ => 255⟩ (by decide) (by decide)
     (by decide), by decide⟩

/-- C6 (fails on the code): with `heap_start = heap_ptr = 4096` and
`size = 2^32 - 4096`, `alloc_chunk` returns and leaves the cursor at 0, below
both the old cursor and the start of the heap. -/
theorem alloc_chunk_moves_cursor_back :
    (alloc_chunk (WORD - 4096) ⟨4096, fun _ => 255⟩
        = .ret (4096, { heap_ptr := 0,
                        mem := memset (fun _ => 255) 4096 0 (WORD - 4096) }))
    ∧ 4096 ≤ END_MEM ∧ WORD - 4096 < WORD ∧ 0 < 4096 :=
  ⟨rfl, by decide, by decide, by decide⟩

/-! ## Console response queue: the claims -/

/-- C7: when every one of the `N` response slots has `count != 0` and
`send_push_pos < N`, `console_sendf` returns, leaves the shared memory exactly
as it was and performs no action: no encoder call, no write of a count or of
`send_push_pos`, no kick. -/
theorem console_sendf_full_queue_unchanged (cfg : Config)
    (command_encodef : List Nat → Nat → command_encoder → List Nat → List Nat × Nat)
    (ce : command_encoder) (args : List Nat) (s : shared_mem)
    (hlen : s.send_data.length = cfg.send_slots)
    (hfull : ∀ slot ∈ s.send_data, slot.count ≠ 0)
    (hpos : s.send_push_pos < cfg.send_slots) :
    console_sendf cfg command_encodef ce args s = some (s, []) := by
  have hlt : s.send_push_pos < s.send_data.length := by omega
  have hget : s.send_data[s.send_push_pos]? = some s.send_data[s.send_push_pos] :=
    List.getElem?_eq_getElem hlt
  have hne : s.send_data[s.send_push_pos].count ≠ 0 :=
    hfull _ (List.getElem_mem hlt)
  unfold console_sendf
  by_cases hbig : ce.max_size > cfg.data_size
  · simp only [hbig, if_true]
  · simp only [hbig, if_false, hget, hne, ne_eq, not_false_eq_true, if_true]

/-- C7 at a concrete full queue of two slots. -/
theorem console_sendf_full_queue_unchanged_witness :
    (sample_full.send_data.length = sample_config.send_slots
      ∧ (∀ slot ∈ sample_full.send_data, slot.count ≠ 0)
      ∧ sample_full.send_push_pos < sample_config.send_slots)
    ∧ console_sendf sample_config sample_encodef ⟨1, 3⟩ [9, 8, 7] sample_full
        = some (sample_full, []) :=
  ⟨by decide,
   console_sendf_full_queue_unchanged sample_config sample_encodef ⟨1, 3⟩ [9, 8, 7]
     sample_full (by decide) (by decide) (by decide)⟩

/-- C8 as stated fails: in a full queue of two slots with `send_push_pos = 0`,
after the consumer frees slot 1 a call of `console_sendf` with a message that
fits still tests slot 0, finds it occupied and drops the message; the freed
slot keeps `count = 0` and nothing is written. -/
theorem console_sendf_ignores_other_free_slot :
    (∀ slot ∈ sample_full.send_data, slot.count ≠ 0)
    ∧ (⟨1, 3⟩ : command_encoder).max_size ≤ sample_config.data_size
    ∧ (peer_free_slot 1 sample_full).send_data[1]? = some ⟨0, [3, 4, 5, 0]⟩
    ∧ console_sendf sample_config sample_encodef ⟨1, 3⟩ [9, 8, 7]
          (peer_free_slot 1 sample_full)
        = some (peer_free_slot 1 sample_full, []) := by
  decide

/-- C8, amended: starting from a full queue, once the consumer has freed the
slot at `send_push_pos`, the next `console_sendf` call with a message that fits
a slot writes the message into that slot, whose count becomes the encoded
length, kicks PRU0 and advances `send_push_pos`. -/
theorem console_sendf_after_free_at_push_pos (cfg : Config)
    (command_encodef : List Nat → Nat → command_encoder → List Nat → List Nat × Nat)
    (ce : command_encoder) (args : List Nat) (s : shared_mem)
    (slot : shared_response_buffer)
    (hlen : s.send_data.length = cfg.send_slots)
    (hN : cfg.send_slots ≤ WORD)
    (_hfull : ∀ b ∈ s.send_data, b.count ≠ 0)
    (hslot : s.send_data[s.send_push_pos]? = some slot)
    (hfit : ce.max_size ≤ cfg.data_size) :
    console_sendf cfg command_encodef ce args (peer_free_slot s.send_push_pos s)
      = some ({ s with
                  send_data := s.send_data.set s.send_push_pos
                    ⟨(command_encodef slot.data ce.max_size ce args).2,
                     (command_encodef slot.data ce.max_size ce args).1⟩
                  send_push_pos := (s.send_push_pos + 1) % cfg.send_slots },
              [.encodef s.send_push_pos
                 (command_encodef slot.data ce.max_size ce args).1,
               .writel_count s.send_push_pos
                 (command_encodef slot.data ce.max_size ce args).2,
               .write_r31 (kick_pru0 cfg),
               .store_send_push_pos ((s.send_push_pos + 1) % cfg.send_slots)]) := by
  have hlt : s.send_push_pos < s.send_data.length := by
    rcases Nat.lt_or_ge s.send_push_pos s.send_data.length with h | h
    · exact h
    · rw [List.getElem?_eq_none h] at hslot; cases hslot
  have hnext : ((s.send_push_pos + 1) % WORD) % cfg.send_slots
      = (s.send_push_pos + 1) % cfg.send_slots := by
    rcases Nat.lt_or_ge (s.send_push_pos + 1) WORD with hlt' | hge
    · rw [Nat.mod_eq_of_lt hlt']
    · have hNW : cfg.send_slots = WORD := by omega
      have hpW : s.send_push_pos + 1 = WORD := by omega
      rw [hpW, hNW, Nat.mod_self, Nat.zero_mod]
  unfold console_sendf peer_free_slot
  simp only [hslot, gt_iff_lt, Nat.not_lt.mpr hfit, if_false,
    List.getElem?_set_self hlt, ne_eq, not_true_eq_false, hnext, List.set_set]

/-- C8, amended, at a concrete full queue: the consumer frees slot 0, the push
position, and the next message lands there. -/
theorem console_sendf_after_free_at_push_pos_witness :
    (∀ b ∈ sample_full.send_data, b.count ≠ 0)
    ∧ console_sendf sample_config sample_encodef ⟨1, 3⟩ [9, 8, 7]
          (peer_free_slot sample_full.send_push_pos sample_full)
        = some ({ sample_full with
                    send_data := [⟨3, [9, 8, 7, 0]⟩, ⟨3, [3, 4, 5, 0]⟩]
                    send_push_pos := 1 },
                [.encodef 0 [9, 8, 7, 0], .writel_count 0 3, .write_r31 34,
                 .store_send_push_pos 1]) :=
  ⟨by decide,
   console_sendf_after_free_at_push_pos sample_config sample_encodef ⟨1, 3⟩
     [9, 8, 7] sample_full ⟨2, [1, 2, 0, 0]⟩ (by decide) (by decide) (by decide)
     (by decide) (by decide)⟩

/-- C9: when the descriptor's `max_size` exceeds the data capacity of a slot,
`console_sendf` returns with the shared memory unchanged and no action
performed, whatever the state of the target slot and of `send_push_pos`. -/
theorem console_sendf_oversize_dropped (cfg : Config)
    (command_encodef : List Nat → Nat → command_encoder → List Nat → List Nat × Nat)
    (ce : command_encoder) (args : List Nat) (s : shared_mem)
    (hbig : ce.max_size > cfg.data_size) :
    console_sendf cfg command_encodef ce args s = some (s, []) := by
  unfold console_sendf
  simp only [hbig, if_true]

/-- C9 at a concrete state whose target slot is free. -/
theorem console_sendf_oversize_dropped_witness :
    (5 > sample_config.data_size
      ∧ (peer_free_slot 0 sample_full).send_data[0]? = some ⟨0, [1, 2, 0, 0]⟩)
    ∧ console_sendf sample_config sample_encodef ⟨1, 5⟩ [9, 8, 7]
          (peer_free_slot 0 sample_full)
        = some (peer_free_slot 0 sample_full, []) :=
  ⟨by decide,
   console_sendf_oversize_dropped sample_config sample_encodef ⟨1, 5⟩ [9, 8, 7]
     (peer_free_slot 0 sample_full) (by decide)⟩

/-- C10: with `send_push_pos = p < N`, slot `p` free and `max_size` within the
slot capacity, `console_sendf` performs, in this order: the encoder call that
fills slot `p`'s data, the write of the returned length to slot `p`'s count,
the kick of PRU0, and the store of `(p + 1) mod N` to `send_push_pos`.  Slot
`p` ends holding that length and body; every other slot is unchanged. -/
theorem console_sendf_enqueues (cfg : Config)
    (command_encodef : List Nat → Nat → command_encoder → List Nat → List Nat × Nat)
    (ce : command_encoder) (args : List Nat) (s : shared_mem)
    (slot : shared_response_buffer)
    (hlen : s.send_data.length = cfg.send_slots)
    (hN : cfg.send_slots ≤ WORD)
    (hpos : s.send_push_pos < cfg.send_slots)
    (hslot : s.send_data[s.send_push_pos]? = some slot)
    (hfree : slot.count = 0)
    (hfit : ce.max_size ≤ cfg.data_size) :
    console_sendf cfg command_encodef ce args s
      = some ({ s with
                  send_data := s.send_data.set s.send_push_pos
                    ⟨(command_encodef slot.data ce.max_size ce args).2,
                     (command_encodef slot.data ce.max_size ce args).1⟩
                  send_push_pos := (s.send_push_pos + 1) % cfg.send_slots },
              [.encodef s.send_push_pos
                 (command_encodef slot.data ce.max_size ce args).1,
               .writel_count s.send_push_pos
                 (command_encodef slot.data ce.max_size ce args).2,
               .write_r31 (kick_pru0 cfg),
               .store_send_push_pos ((s.send_push_pos + 1) % cfg.send_slots)])
    ∧ (s.send_data.set s.send_push_pos
          ⟨(command_encodef slot.data ce.max_size ce args).2,
           (command_encodef slot.data ce.max_size ce args).1⟩)[s.send_push_pos]?
        = some ⟨(command_encodef slot.data ce.max_size ce args).2,
                (command_encodef slot.data ce.max_size ce args).1⟩
    ∧ ∀ i, i ≠ s.send_push_pos →
        (s.send_data.set s.send_push_pos
          ⟨(command_encodef slot.data ce.max_size ce args).2,
           (command_encodef slot.data ce.max_size ce args).1⟩)[i]?
        = s.send_data[i]? := by
  have hnext : ((s.send_push_pos + 1) % WORD) % cfg.send_slots
      = (s.send_push_pos + 1) % cfg.send_slots := by
    rcases Nat.lt_or_ge (s.send_push_pos + 1) WORD with hlt | hge
    · rw [Nat.mod_eq_of_lt hlt]
    · have hNW : cfg.send_slots = WORD := by omega
      have hpW : s.send_push_pos + 1 = WORD := by omega
      rw [hpW, hNW, Nat.mod_self, Nat.zero_mod]
  have hlt : s.send_push_pos < s.send_data.length := by omega
  refine ⟨?_, ?_, ?_⟩
  · unfold console_sendf
    simp only [gt_iff_lt, Nat.not_lt.mpr hfit, if_false, hslot, hfree, ne_eq,
      not_true_eq_false, hnext]
  · rw [List.getElem?_set_self hlt]
  · intro i hi
    rw [List.getElem?_set_ne (Ne.symm hi)]

/-- C10 at a concrete state: slot 1 of 2 is free and is the push position. -/
theorem console_sendf_enqueues_witness :
    console_sendf sample_config sample_encodef ⟨1, 3⟩ [9, 8, 7]
        { peer_free_slot 1 sample_full with send_push_pos := 1 }
      = some ({ sample_full with
                  send_data := [⟨2, [1, 2, 0, 0]⟩, ⟨3, [9, 8, 7, 0]⟩]
                  send_push_pos := 0 },
              [.encodef 1 [9, 8, 7, 0], .writel_count 1 3, .write_r31 34,
               .store_send_push_pos 0]) :=
  (console_sendf_enqueues sample_config sample_encodef ⟨1, 3⟩ [9, 8, 7]
     { peer_free_slot 1 sample_full with send_push_pos := 1 } ⟨0, [3, 4, 5, 0]⟩
     (by decide) (by decide) (by decide) (by decide) (by decide) (by decide)).1

/-! ## Timers: auxiliary facts -/

/-- A bit of a status register after a store: it stays set only if it was set
and was not written as 1. -/
theorem testBit_w1c (old value i : Nat) :
    (w1c old value).testBit i = (old.testBit i && !value.testBit i) := by
  unfold w1c
  rw [Nat.testBit_xor, Nat.testBit_and]
  cases old.testBit i <;> cases value.testBit i <;> rfl

/-- Bit `j` of `1 << i` is set exactly when `j = i`. -/
theorem testBit_one_shiftLeft (i j : Nat) :
    (1 <<< i).testBit j = decide (i = j) := by
  rw [Nat.one_shiftLeft, Nat.testBit_two_pow]

/-- Whatever path `_irq_poll` takes, the value it leaves in `SECR0` is the
result of the store of `(1 << IEP_EVENT) | (1 << KICK_PRU1_EVENT)`. -/
theorem _irq_poll_SECR0 (cfg : Config) (timer_dispatch_many : Regs → Nat × Regs)
    (r : Regs) :
    ∃ old, (_irq_poll cfg timer_dispatch_many r).1.SECR0
      = w1c old ((1 <<< cfg.IEP_EVENT) ||| (1 <<< cfg.KICK_PRU1_EVENT)) := by
  unfold _irq_poll
  split
  · exact ⟨_, rfl⟩
  · exact ⟨_, rfl⟩

/-! ## Timers: the claims -/

/-- C13: when `irq_poll` runs with the interrupt line asserted, then (a) if the
timer match bit of `SECR0` is set, the drain is called exactly once and
afterwards `TMR_CMP0` holds the deadline it returned; (b) if the match bit is
clear, the drain is not called and `TMR_CMP0` is unchanged; (c) in both cases
the last action is the store of `(1 << IEP_EVENT) | (1 << KICK_PRU1_EVENT)` to
`SECR0`, after which both pending bits read clear. -/
theorem irq_poll_asserted (cfg : Config) (timer_dispatch_many : Regs → Nat × Regs)
    (r : Regs)
    (hirq : r.r31 &&& (1 <<< (cfg.WAKE_PRU1_IRQ + cfg.R31_IRQ_OFFSET)) ≠ 0) :
    (r.SECR0 &&& (1 <<< cfg.IEP_EVENT) ≠ 0 →
        (irq_poll cfg timer_dispatch_many r).2
          = [.store_TMR_CMP_STS 0xff, .timer_dispatch_many,
             .store_TMR_CMP0
               (timer_dispatch_many { r with TMR_CMP_STS := w1c r.TMR_CMP_STS 0xff }).1,
             .store_SECR0 ((1 <<< cfg.IEP_EVENT) ||| (1 <<< cfg.KICK_PRU1_EVENT))]
        ∧ (irq_poll cfg timer_dispatch_many r).1.TMR_CMP0
          = (timer_dispatch_many { r with TMR_CMP_STS := w1c r.TMR_CMP_STS 0xff }).1)
    ∧ (r.SECR0 &&& (1 <<< cfg.IEP_EVENT) = 0 →
        (irq_poll cfg timer_dispatch_many r).2
          = [.store_SECR0 ((1 <<< cfg.IEP_EVENT) ||| (1 <<< cfg.KICK_PRU1_EVENT))]
        ∧ (irq_poll cfg timer_dispatch_many r).1.TMR_CMP0 = r.TMR_CMP0)
    ∧ (irq_poll cfg timer_dispatch_many r).2.getLast?
        = some (.store_SECR0 ((1 <<< cfg.IEP_EVENT) ||| (1 <<< cfg.KICK_PRU1_EVENT)))
    ∧ (irq_poll cfg timer_dispatch_many r).1.SECR0.testBit cfg.IEP_EVENT = false
    ∧ (irq_poll cfg timer_dispatch_many r).1.SECR0.testBit cfg.KICK_PRU1_EVENT = false := by
  have hpoll : irq_poll cfg timer_dispatch_many r = _irq_poll cfg timer_dispatch_many r := by
    unfold irq_poll
    rw [if_pos hirq]
  rw [hpoll]
  obtain ⟨old, hold⟩ := _irq_poll_SECR0 cfg timer_dispatch_many r
  refine ⟨?_, ?_, ?_, ?_, ?_⟩
  · intro hmatch
    unfold _irq_poll
    rw [if_pos hmatch]
    exact ⟨rfl, rfl⟩
  · intro hmatch
    unfold _irq_poll
    rw [if_neg (fun h => h hmatch)]
    exact ⟨rfl, rfl⟩
  · unfold _irq_poll
    split <;> rfl
  · rw [hold, testBit_w1c, Nat.testBit_or, testBit_one_shiftLeft]
    simp only [decide_True, Bool.true_or, Bool.not_true, Bool.and_false]
  · rw [hold, testBit_w1c, Nat.testBit_or, testBit_one_shiftLeft,
      testBit_one_shiftLeft]
    simp only [decide_True, Bool.or_true, Bool.not_true, Bool.and_false]

/-- C13 at concrete registers: timer and kick both pending, the drain reports
deadline 1200; afterwards `TMR_CMP0 = 1200` and `SECR0` reads 0. -/
theorem irq_poll_asserted_witness :
    sample_regs.r31 &&& (1 <<< (sample_config.WAKE_PRU1_IRQ + sample_config.R31_IRQ_OFFSET)) ≠ 0
    ∧ sample_regs.SECR0 &&& (1 <<< sample_config.IEP_EVENT) ≠ 0
    ∧ (irq_poll sample_config sample_drain sample_regs).2
        = [.store_TMR_CMP_STS 255, .timer_dispatch_many, .store_TMR_CMP0 1200,
           .store_SECR0 524416]
    ∧ (irq_poll sample_config sample_drain sample_regs).1.TMR_CMP0 = 1200 :=
  ⟨by decide, by decide,
   (irq_poll_asserted sample_config sample_drain sample_regs (by decide)).1 (by decide)⟩

/-- C17: when the interrupt-available bit of r31 is clear, `irq_poll` does
nothing: the registers are unchanged and no action is performed (no drain
call, no store to `TMR_CMP0`, `TMR_CMP_STS` or `SECR0`). -/
theorem irq_poll_line_clear (cfg : Config) (timer_dispatch_many : Regs → Nat × Regs)
    (r : Regs)
    (hclear : r.r31 &&& (1 <<< (cfg.WAKE_PRU1_IRQ + cfg.R31_IRQ_OFFSET)) = 0) :
    irq_poll cfg timer_dispatch_many r = (r, []) := by
  unfold irq_poll
  rw [if_neg (fun h => h hclear)]

/-- C17 at concrete registers: events pending but the line to PRU1 not
asserted. -/
theorem irq_poll_line_clear_witness :
    ({ sample_regs with r31 := 1 <<< 30 } : Regs).r31
        &&& (1 <<< (sample_config.WAKE_PRU1_IRQ + sample_config.R31_IRQ_OFFSET)) = 0
    ∧ irq_poll sample_config sample_drain { sample_regs with r31 := 1 <<< 30 }
        = ({ sample_regs with r31 := 1 <<< 30 }, []) :=
  ⟨by decide,
   irq_poll_line_clear sample_config sample_drain { sample_regs with r31 := 1 <<< 30 }
     (by decide)⟩

/-- C14 as stated fails: with the timer event (bit 7) and the kick event
(bit 19) both pending, `timer_shutdown` stores `1 << 7 = 128` to `SECR0`; the
kick bit is not written and is still pending afterwards. -/
theorem timer_shutdown_leaves_kick_pending :
    sample_regs.SECR0.testBit sample_config.KICK_PRU1_EVENT = true
    ∧ (timer_shutdown sample_config sample_regs).2
        = [.store_TMR_CMP0 1050, .store_TMR_CMP_STS 255, .delay_cycles 4,
           .store_SECR0 128]
    ∧ (128).testBit sample_config.KICK_PRU1_EVENT = false
    ∧ (timer_shutdown sample_config sample_regs).1.SECR0.testBit
        sample_config.KICK_PRU1_EVENT = true := by
  decide

/-- C14, amended: `timer_shutdown` stores `(counter + 50) mod 2^32` to the
compare register, then `0xff` to the latched comparison status (clearing its
eight bits), waits four cycles, then stores `1 << IEP_EVENT` to `SECR0`: the
pending bit of the timer event is cleared, the pending bit of the kick event is
not written and keeps its value. -/
theorem timer_shutdown_clears_timer_event_only (cfg : Config) (r : Regs)
    (hne : cfg.IEP_EVENT ≠ cfg.KICK_PRU1_EVENT) :
    (timer_shutdown cfg r).2
        = [.store_TMR_CMP0 ((r.TMR_CNT + 50) % WORD), .store_TMR_CMP_STS 0xff,
           .delay_cycles 4, .store_SECR0 (1 <<< cfg.IEP_EVENT)]
    ∧ (timer_shutdown cfg r).1.TMR_CMP0 = (r.TMR_CNT + 50) % WORD
    ∧ (∀ i, i < 8 → (timer_shutdown cfg r).1.TMR_CMP_STS.testBit i = false)
    ∧ (timer_shutdown cfg r).1.SECR0.testBit cfg.IEP_EVENT = false
    ∧ (timer_shutdown cfg r).1.SECR0.testBit cfg.KICK_PRU1_EVENT
        = r.SECR0.testBit cfg.KICK_PRU1_EVENT := by
  refine ⟨rfl, rfl, ?_, ?_, ?_⟩
  · intro i hi
    have hbit : (255 : Nat).testBit i = true := by
      interval_cases i <;> decide
    show (w1c r.TMR_CMP_STS 255).testBit i = false
    rw [testBit_w1c, hbit]
    simp only [Bool.not_true, Bool.and_false]
  · show (w1c r.SECR0 (1 <<< cfg.IEP_EVENT)).testBit cfg.IEP_EVENT = false
    rw [testBit_w1c, testBit_one_shiftLeft]
    simp only [decide_True, Bool.not_true, Bool.and_false]
  · show (w1c r.SECR0 (1 <<< cfg.IEP_EVENT)).testBit cfg.KICK_PRU1_EVENT
        = r.SECR0.testBit cfg.KICK_PRU1_EVENT
    rw [testBit_w1c, testBit_one_shiftLeft]
    simp only [hne, decide_False, Bool.not_false, Bool.and_true]

/-- C14, amended, at concrete registers: counter 1000, both events pending. -/
theorem timer_shutdown_clears_timer_event_only_witness :
    sample_config.IEP_EVENT ≠ sample_config.KICK_PRU1_EVENT
    ∧ (timer_shutdown sample_config sample_regs).2
        = [.store_TMR_CMP0 ((1000 + 50) % WORD), .store_TMR_CMP_STS 0xff,
           .delay_cycles 4, .store_SECR0 (1 <<< 7)]
    ∧ (timer_shutdown sample_config sample_regs).1.TMR_CMP0 = 1050 :=
  ⟨by decide,
   (timer_shutdown_clears_timer_event_only sample_config sample_regs (by decide)).1,
   (timer_shutdown_clears_timer_event_only sample_config sample_regs (by decide)).2.1⟩

/-! ## Command mailbox: the claims -/

/-- C11: (a) for a non-empty mailbox whose invoked callee (the handler, or the
shutdown-report callback when that path is taken) returns, `console_task`
returns with `next_command = 0`, and a second poll of that state performs no
action and changes nothing; (b) on an empty mailbox `console_task` performs no
action (no handler call, no shutdown-report call) and returns the shared
memory unchanged. -/
theorem console_task_consumes_mailbox (cfg : Config) (deref : Nat → command_parser_desc)
    (is_shutdown : Bool) (report : shared_mem → Outcome shared_mem)
    (s s1 : shared_mem)
    (hne : s.next_command ≠ 0)
    (hret : (if is_shutdown = true
                ∧ (deref s.next_command).flags &&& cfg.HF_IN_SHUTDOWN = 0
             then report s
             else (deref s.next_command).func s.next_command_args s) = .ret s1) :
    (∃ t, console_task cfg deref is_shutdown report s
          = (t, .ret { s1 with next_command := 0 })
        ∧ ∀ b, console_task cfg deref b report { s1 with next_command := 0 }
            = ([], .ret { s1 with next_command := 0 }))
    ∧ (∀ (s0 : shared_mem) (b : Bool), s0.next_command = 0 →
        console_task cfg deref b report s0 = ([], .ret s0)) := by
  have hempty : ∀ (s0 : shared_mem) (b : Bool), s0.next_command = 0 →
      console_task cfg deref b report s0 = ([], .ret s0) := by
    intro s0 b h0
    unfold console_task
    simp only [h0, if_true]
  refine ⟨?_, hempty⟩
  by_cases hc : is_shutdown = true ∧ (deref s.next_command).flags &&& cfg.HF_IN_SHUTDOWN = 0
  · rw [if_pos hc] at hret
    have hrun : console_task cfg deref is_shutdown report s
        = ([.sched_report_shutdown, .writel_next_command 0],
           .ret { s1 with next_command := 0 }) := by
      unfold console_task
      simp only [hne, if_false, hc, and_self, if_true, hret]
    exact ⟨_, hrun, fun b => hempty _ b rfl⟩
  · rw [if_neg hc] at hret
    have hrun : console_task cfg deref is_shutdown report s
        = ([.call_func s.next_command s.next_command_args, .writel_next_command 0],
           .ret { s1 with next_command := 0 }) := by
      unfold console_task
      simp only [hne, if_false, hc, hret]
    exact ⟨_, hrun, fun b => hempty _ b rfl⟩

/-- C11 at a concrete mailbox: the command at address 520 is consumed, the
mailbox reads 0 afterwards and a second poll does nothing. -/
theorem console_task_consumes_mailbox_witness :
    (sample_posted 520).next_command ≠ 0
    ∧ ∃ t, console_task sample_config sample_deref false sample_report (sample_posted 520)
          = (t, .ret { sample_posted 520 with command_index_size := 7, next_command := 0 })
        ∧ ∀ b, console_task sample_config sample_deref b sample_report
              { sample_posted 520 with command_index_size := 7, next_command := 0 }
            = ([], .ret { sample_posted 520 with command_index_size := 7,
                                                 next_command := 0 }) :=
  ⟨by decide,
   (console_task_consumes_mailbox sample_config sample_deref false sample_report
      (sample_posted 520) { sample_posted 520 with command_index_size := 7 }
      (by decide) rfl).1⟩

/-- C12: for a pending command descriptor, `console_task` invokes the
shutdown-report callback and not the handler exactly when the scheduler is in
shutdown and the descriptor lacks `HF_IN_SHUTDOWN`, and in every other case
invokes the handler once with the mailbox argument buffer and not the
shutdown-report callback.  The whole result is pinned: the action list is the
one call followed by the mailbox store when the callee returned, and the
outcome is the outcome of the callee that was invoked, applied to the shared
memory `console_task` started from, with the mailbox cleared on return. -/
theorem console_task_shutdown_filter (cfg : Config) (deref : Nat → command_parser_desc)
    (is_shutdown : Bool) (report : shared_mem → Outcome shared_mem) (s : shared_mem)
    (hne : s.next_command ≠ 0) :
    calls_made (console_task cfg deref is_shutdown report s).1
      = (if is_shutdown = true ∧ (deref s.next_command).flags &&& cfg.HF_IN_SHUTDOWN = 0
         then [.sched_report_shutdown]
         else [.call_func s.next_command s.next_command_args])
    ∧ console_task cfg deref is_shutdown report s
      = (if is_shutdown = true ∧ (deref s.next_command).flags &&& cfg.HF_IN_SHUTDOWN = 0
         then (.sched_report_shutdown :: mailbox_store_after (report s),
               mailbox_cleared (report s))
         else (.call_func s.next_command s.next_command_args
                 :: mailbox_store_after
                      ((deref s.next_command).func s.next_command_args s),
               mailbox_cleared
                 ((deref s.next_command).func s.next_command_args s))) := by
  unfold console_task
  by_cases hc : is_shutdown = true ∧ (deref s.next_command).flags &&& cfg.HF_IN_SHUTDOWN = 0
  · simp only [hne, if_false, hc, and_self, if_true]
    cases report s <;> exact ⟨rfl, rfl⟩
  · simp only [hne, if_false, hc]
    cases (deref s.next_command).func s.next_command_args s <;> exact ⟨rfl, rfl⟩

/-- C12 at concrete mailboxes during shutdown: the unflagged descriptor at 528
is answered by the shutdown report and its handler does not run (the shared
memory is as the report left it), the flagged one at 520 still runs (its
handler's change to `command_index_size` is in the result). -/
theorem console_task_shutdown_filter_witness :
    ((sample_posted 528).next_command ≠ 0 ∧ (sample_posted 520).next_command ≠ 0)
    ∧ console_task sample_config sample_deref true sample_report (sample_posted 528)
        = ([.sched_report_shutdown, .writel_next_command 0],
           .ret { sample_posted 528 with next_command := 0 })
    ∧ console_task sample_config sample_deref true sample_report (sample_posted 520)
        = ([.call_func 520 [7, 8], .writel_next_command 0],
           .ret { sample_posted 520 with command_index_size := 7, next_command := 0 }) :=
  ⟨by decide,
   (console_task_shutdown_filter sample_config sample_deref true sample_report
     (sample_posted 528) (by decide)).2,
   (console_task_shutdown_filter sample_config sample_deref true sample_report
     (sample_posted 520) (by decide)).2⟩

/-- C19: `shutdown_request` does not carry `HF_IN_SHUTDOWN`.  When
`console_task` finds it in the mailbox during shutdown, the only call it makes
is the shutdown-report callback (the handler, and with it
`shutdown("Request from PRU0")`, is not invoked), and if that callback returns
the mailbox is cleared; when not in shutdown, `console_task` calls the handler
and ends in `shutdown("Request from PRU0")`. -/
theorem shutdown_request_dispatch (cfg : Config) (deref : Nat → command_parser_desc)
    (report : shared_mem → Outcome shared_mem) (s : shared_mem)
    (hne : s.next_command ≠ 0)
    (hdesc : deref s.next_command = shutdown_request) :
    shutdown_request.flags &&& cfg.HF_IN_SHUTDOWN = 0
    ∧ calls_made (console_task cfg deref true report s).1 = [.sched_report_shutdown]
    ∧ (∀ s1, report s = .ret s1 →
        console_task cfg deref true report s
          = ([.sched_report_shutdown, .writel_next_command 0],
             .ret { s1 with next_command := 0 }))
    ∧ console_task cfg deref false report s
        = ([.call_func s.next_command s.next_command_args],
           .shutdown "Request from PRU0") := by
  have hflag : shutdown_request.flags &&& cfg.HF_IN_SHUTDOWN = 0 := by
    show 0 &&& cfg.HF_IN_SHUTDOWN = 0
    exact Nat.zero_and _
  refine ⟨hflag, ?_, ?_, ?_⟩
  · unfold console_task
    simp only [hne, if_false, hdesc, hflag, and_self, if_true]
    cases report s <;> rfl
  · intro s1 hrep
    unfold console_task
    simp only [hne, if_false, hdesc, hflag, and_self, if_true, hrep]
  · unfold console_task
    simp only [hne, if_false, hdesc, Bool.false_eq_true, false_and]
    rfl

/-- C19 at a concrete mailbox holding the address of `shutdown_request`. -/
theorem shutdown_request_dispatch_witness :
    (sample_posted 512).next_command ≠ 0
    ∧ console_task sample_config sample_deref true sample_report (sample_posted 512)
        = ([.sched_report_shutdown, .writel_next_command 0],
           .ret { sample_posted 512 with next_command := 0 })
    ∧ console_task sample_config sample_deref false sample_report (sample_posted 512)
        = ([.call_func 512 [7, 8]], .shutdown "Request from PRU0") :=
  ⟨by decide,
   (shutdown_request_dispatch sample_config sample_deref sample_report
      (sample_posted 512) (by decide) rfl).2.2.1 (sample_posted 512) rfl,
   (shutdown_request_dispatch sample_config sample_deref sample_report
      (sample_posted 512) (by decide) rfl).2.2.2⟩

/-- Every store `console_task` makes to the mailbox stores 0. -/
theorem console_task_mailbox_stores (cfg : Config) (deref : Nat → command_parser_desc)
    (b : Bool) (report : shared_mem → Outcome shared_mem) (s : shared_mem) (v : Nat)
    (hv : Action.writel_next_command v ∈ (console_task cfg deref b report s).1) :
    v = 0 := by
  unfold console_task at hv
  by_cases h0 : s.next_command = 0
  · simp only [h0, if_true, List.not_mem_nil] at hv
  · by_cases hc : b = true ∧ (deref s.next_command).flags &&& cfg.HF_IN_SHUTDOWN = 0
    · simp only [h0, if_false, hc, and_self, if_true] at hv
      cases hrep : report s <;> rw [hrep] at hv <;>
        simp only [List.mem_cons, List.mem_singleton, List.not_mem_nil, or_false,
          Action.writel_next_command.injEq, false_or, reduceCtorEq] at hv
      exact hv
    · simp only [h0, if_false, hc] at hv
      cases hrun : (deref s.next_command).func s.next_command_args s <;>
        rw [hrun] at hv <;>
        simp only [List.mem_cons, List.mem_singleton, List.not_mem_nil, or_false,
          Action.writel_next_command.injEq, false_or, reduceCtorEq] at hv
      exact hv

/-- Whenever `console_task` returns, the shared memory it leaves has an empty
mailbox: no path leaves a descriptor pointer in `next_command`. -/
theorem console_task_leaves_mailbox_empty (cfg : Config)
    (deref : Nat → command_parser_desc) (b : Bool)
    (report : shared_mem → Outcome shared_mem) (s s' : shared_mem)
    (hret : (console_task cfg deref b report s).2 = .ret s') :
    s'.next_command = 0 := by
  unfold console_task at hret
  by_cases h0 : s.next_command = 0
  · simp only [h0, if_true, Outcome.ret.injEq] at hret
    rw [← hret]; exact h0
  · by_cases hc : b = true ∧ (deref s.next_command).flags &&& cfg.HF_IN_SHUTDOWN = 0
    · simp only [h0, if_false, hc, and_self, if_true] at hret
      cases hrep : report s <;> rw [hrep] at hret <;>
        simp only [Outcome.ret.injEq, reduceCtorEq] at hret
      rw [← hret]
    · simp only [h0, if_false, hc] at hret
      cases hrun : (deref s.next_command).func s.next_command_args s <;>
        rw [hrun] at hret <;>
        simp only [Outcome.ret.injEq, reduceCtorEq] at hret
      rw [← hret]

/-- A mailbox store is among the actions of `console_task` exactly when it
returns from a non-empty mailbox, and then it is the last action. -/
theorem console_task_mailbox_store_iff (cfg : Config)
    (deref : Nat → command_parser_desc) (b : Bool)
    (report : shared_mem → Outcome shared_mem) (s : shared_mem)
    (hne : s.next_command ≠ 0) :
    (Action.writel_next_command 0 ∈ (console_task cfg deref b report s).1
      ↔ ∃ s', (console_task cfg deref b report s).2 = .ret s')
    ∧ ((∃ s', (console_task cfg deref b report s).2 = .ret s') →
        (console_task cfg deref b report s).1.getLast?
          = some (.writel_next_command 0)) := by
  unfold console_task
  by_cases hc : b = true ∧ (deref s.next_command).flags &&& cfg.HF_IN_SHUTDOWN = 0
  · simp only [hne, if_false, hc, and_self, if_true]
    cases report s <;>
      simp only [List.mem_cons, List.mem_singleton, List.not_mem_nil, or_false,
        reduceCtorEq, false_or, Outcome.ret.injEq, exists_eq', exists_false,
        List.getLast?, List.getLast, imp_self, and_self, false_implies]
  · simp only [hne, if_false, hc]
    cases (deref s.next_command).func s.next_command_args s <;>
      simp only [List.mem_cons, List.mem_singleton, List.not_mem_nil, or_false,
        reduceCtorEq, false_or, Outcome.ret.injEq, exists_eq', exists_false,
        List.getLast?, List.getLast, imp_self, and_self, false_implies]

/-- C16: every store to the mailbox `next_command` made by `console_task` or
`console_shutdown` stores the empty value 0, and the shared memory either of
them returns has `next_command = 0`: no path leaves a descriptor pointer in the
mailbox.  `console_sendf` and `main` leave the field as it was, and `main`
performs no mailbox store at all. -/
theorem next_command_only_cleared :
    (∀ (cfg : Config) (deref : Nat → command_parser_desc) (b : Bool)
        (report : shared_mem → Outcome shared_mem) (s : shared_mem),
        (∀ v : Nat,
          Action.writel_next_command v ∈ (console_task cfg deref b report s).1 → v = 0)
        ∧ (∀ s' : shared_mem,
            (console_task cfg deref b report s).2 = .ret s' → s'.next_command = 0)
        ∧ (s.next_command ≠ 0 →
            (Action.writel_next_command 0 ∈ (console_task cfg deref b report s).1
              ↔ ∃ s', (console_task cfg deref b report s).2 = .ret s'))
        ∧ (s.next_command = 0 →
            console_task cfg deref b report s = ([], .ret s)))
    ∧ (∀ s : shared_mem,
        console_shutdown s = ({ s with next_command := 0 }, [.writel_next_command 0]))
    ∧ (∀ (cfg : Config)
        (command_encodef : List Nat → Nat → command_encoder → List Nat → List Nat × Nat)
        (ce : command_encoder) (args : List Nat) (s : shared_mem)
        (out : shared_mem × List Effect),
        console_sendf cfg command_encodef ce args s = some out →
          out.1.next_command = s.next_command)
    ∧ (∀ (cfg : Config) (ci cis sh fuel : Nat) (signal_at : Nat → Nat) (s : shared_mem)
        (out : List shared_mem × List Action),
        main cfg ci cis sh fuel signal_at s = some out →
          (∀ st ∈ out.1, st.next_command = s.next_command)
          ∧ ∀ v, Action.writel_next_command v ∉ out.2) := by
  refine ⟨?_, fun _ => rfl, ?_, ?_⟩
  · intro cfg deref b report s
    refine ⟨fun v => console_task_mailbox_stores cfg deref b report s v,
      fun s' => console_task_leaves_mailbox_empty cfg deref b report s s',
      fun hne => (console_task_mailbox_store_iff cfg deref b report s hne).1, ?_⟩
    intro h0
    unfold console_task
    simp only [h0, if_true]
  · intro cfg enc ce args s out hout
    unfold console_sendf at hout
    by_cases hbig : ce.max_size > cfg.data_size
    · simp only [hbig, if_true, Option.some.injEq] at hout
      rw [← hout]
    · simp only [hbig, if_false] at hout
      cases hslot : s.send_data[s.send_push_pos]? with
      | none => rw [hslot] at hout; cases hout
      | some slot =>
        rw [hslot] at hout
        by_cases hcount : slot.count ≠ 0
        · simp only [hcount, ne_eq, not_false_eq_true, if_true, Option.some.injEq] at hout
          rw [← hout]
        · simp only [hcount, if_false, Option.some.injEq] at hout
          rw [← hout]
  · intro cfg ci cis sh fuel signal_at s out hout
    unfold main at hout
    cases hwait : main_wait cfg signal_at fuel 0 with
    | none => rw [hwait] at hout; cases hout
    | some i =>
      rw [hwait] at hout
      simp only [Option.some.injEq] at hout
      rw [← hout]
      refine ⟨?_, ?_⟩
      · intro st hst
        simp only [List.mem_cons, List.mem_singleton, List.not_mem_nil, or_false] at hst
        rcases hst with h | h | h | h | h <;> rw [h]
      · intro v hv
        simp only [List.mem_cons, List.mem_singleton, List.not_mem_nil, or_false,
          reduceCtorEq] at hv

/-! ## Startup: the claims -/

/-- Once some read within the fuel returns `SIGNAL_PRU0_WAITING`, the polling
loop of `main` ends at a read that returned it. -/
theorem main_wait_finds (cfg : Config) (signal_at : Nat → Nat) :
    ∀ (fuel start i : Nat), start ≤ i → i < start + fuel →
      signal_at i = cfg.SIGNAL_PRU0_WAITING →
      ∃ k, main_wait cfg signal_at fuel start = some k
        ∧ signal_at k = cfg.SIGNAL_PRU0_WAITING := by
  intro fuel
  induction fuel with
  | zero => intro start i h1 h2 _; omega
  | succ n ih =>
    intro start i h1 h2 hi
    unfold main_wait
    by_cases hs : signal_at start ≠ cfg.SIGNAL_PRU0_WAITING
    · rw [if_pos hs]
      have hlt : start ≠ i := fun h => hs (h ▸ hi)
      exact ih (start + 1) i (by omega) (by omega) hi
    · rw [if_neg hs]
      exact ⟨start, rfl, not_not.mp hs⟩

/-- C15: once `main` observes the peer-waiting signal, its stores are, in this
order, `command_index`, `command_index_size`, `shutdown_handler`, then the
ready signal, followed only by the call of `sched_main`; none of the three
fields is stored again.  In every state of the sequence in which `signal`
equals ready, the three fields hold the published values. -/
theorem main_publishes_before_ready (cfg : Config) (ci cis sh fuel : Nat)
    (signal_at : Nat → Nat) (s : shared_mem) (i : Nat)
    (hne : cfg.SIGNAL_PRU0_WAITING ≠ cfg.SIGNAL_PRU1_READY)
    (hsee : signal_at i = cfg.SIGNAL_PRU0_WAITING) (hfuel : i < fuel) :
    ∃ states,
      main cfg ci cis sh fuel signal_at s
        = some (states,
            [.store_command_index ci, .store_command_index_size cis,
             .store_shutdown_handler sh, .writel_signal cfg.SIGNAL_PRU1_READY,
             .sched_main])
      ∧ states.getLast?
          = some { s with signal := cfg.SIGNAL_PRU1_READY, command_index := ci,
                          command_index_size := cis, shutdown_handler := sh }
      ∧ ∀ st ∈ states, st.signal = cfg.SIGNAL_PRU1_READY →
          st.command_index = ci ∧ st.command_index_size = cis
            ∧ st.shutdown_handler = sh := by
  obtain ⟨k, hk, hsig⟩ := main_wait_finds cfg signal_at fuel 0 i (Nat.zero_le _)
    (by omega) hsee
  unfold main
  rw [hk]
  refine ⟨_, rfl, rfl, ?_⟩
  intro st hst hready
  simp only [List.mem_cons, List.mem_singleton, List.not_mem_nil, or_false] at hst
  rcases hst with h | h | h | h | h
  · rw [h] at hready; exact absurd (hsig ▸ hready) hne
  · rw [h] at hready; exact absurd (hsig ▸ hready) hne
  · rw [h] at hready; exact absurd (hsig ▸ hready) hne
  · rw [h] at hready; exact absurd (hsig ▸ hready) hne
  · rw [h]; exact ⟨rfl, rfl, rfl⟩

/-- C15 at a concrete run: the third read of `signal` returns peer-waiting. -/
theorem main_publishes_before_ready_witness :
    sample_config.SIGNAL_PRU0_WAITING ≠ sample_config.SIGNAL_PRU1_READY
    ∧ ∃ states,
      main sample_config 256 8 512 5 (fun i => if i = 2 then 4025479151 else 0)
          sample_full
        = some (states,
            [.store_command_index 256, .store_command_index_size 8,
             .store_shutdown_handler 512, .writel_signal 2880154539, .sched_main])
      ∧ states.getLast?
          = some { sample_full with signal := 2880154539, command_index := 256,
                                    command_index_size := 8, shutdown_handler := 512 }
      ∧ ∀ st ∈ states, st.signal = 2880154539 →
          st.command_index = 256 ∧ st.command_index_size = 8
            ∧ st.shutdown_handler = 512 :=
  ⟨by decide,
   main_publishes_before_ready sample_config 256 8 512 5
     (fun i => if i = 2 then 4025479151 else 0) sample_full 2 (by decide) (by decide)
     (by decide)⟩

/-! ## Response queue under repeated use: the claims -/

/-- One `console_sendf` call from a state whose `send_push_pos` is in bounds:
the call indexes in bounds, keeps `send_push_pos` in bounds, keeps the number
of slots, and changes no slot other than the one at the old `send_push_pos`. -/
theorem console_sendf_step (cfg : Config)
    (command_encodef : List Nat → Nat → command_encoder → List Nat → List Nat × Nat)
    (ce : command_encoder) (args : List Nat) (s : shared_mem)
    (hlen : s.send_data.length = cfg.send_slots)
    (hpos : s.send_push_pos < cfg.send_slots) :
    ∃ s' e, console_sendf cfg command_encodef ce args s = some (s', e)
      ∧ s'.send_push_pos < cfg.send_slots
      ∧ s'.send_data.length = cfg.send_slots
      ∧ ∀ i, i ≠ s.send_push_pos → s'.send_data[i]? = s.send_data[i]? := by
  have hlt : s.send_push_pos < s.send_data.length := by omega
  have hget : s.send_data[s.send_push_pos]? = some s.send_data[s.send_push_pos] :=
    List.getElem?_eq_getElem hlt
  unfold console_sendf
  by_cases hbig : ce.max_size > cfg.data_size
  · exact ⟨s, [], by simp only [hbig, if_true], hpos, hlen, fun _ _ => rfl⟩
  · by_cases hcount : s.send_data[s.send_push_pos].count ≠ 0
    · exact ⟨s, [], by simp only [hbig, if_false, hget, hcount, ne_eq,
        not_false_eq_true, if_true], hpos, hlen, fun _ _ => rfl⟩
    · simp only [hbig, if_false, hget, hcount]
      refine ⟨_, _, rfl, ?_, ?_, ?_⟩
      · exact Nat.mod_lt _ (by omega)
      · show (s.send_data.set _ _).length = cfg.send_slots
        rw [List.length_set, hlen]
      · intro i hi
        show (s.send_data.set _ _)[i]? = s.send_data[i]?
        rw [List.getElem?_set_ne (Ne.symm hi)]

/-- The peer freeing a slot changes neither `send_push_pos` nor the number of
slots. -/
theorem peer_free_slot_shape (i : Nat) (s : shared_mem) :
    (peer_free_slot i s).send_push_pos = s.send_push_pos
      ∧ (peer_free_slot i s).send_data.length = s.send_data.length := by
  unfold peer_free_slot
  split
  · exact ⟨rfl, List.length_set _ _ _⟩
  · exact ⟨rfl, rfl⟩

/-- Every run of queue steps from an in-bounds state stays in bounds. -/
theorem run_queue_in_bounds (cfg : Config)
    (command_encodef : List Nat → Nat → command_encoder → List Nat → List Nat × Nat) :
    ∀ (steps : List QueueStep) (s : shared_mem),
      s.send_data.length = cfg.send_slots → s.send_push_pos < cfg.send_slots →
      ∃ s', run_queue cfg command_encodef steps s = some s'
        ∧ s'.send_push_pos < cfg.send_slots
        ∧ s'.send_data.length = cfg.send_slots := by
  intro steps
  induction steps with
  | nil => intro s hlen hpos; exact ⟨s, rfl, hpos, hlen⟩
  | cons step rest ih =>
    intro s hlen hpos
    cases step with
    | sendf ce args =>
      obtain ⟨s', e, hrun, hpos', hlen', _⟩ :=
        console_sendf_step cfg command_encodef ce args s hlen hpos
      unfold run_queue
      rw [hrun]
      exact ih s' hlen' hpos'
    | peer_free i =>
      obtain ⟨hp, hl⟩ := peer_free_slot_shape i s
      unfold run_queue
      exact ih _ (by rw [hl, hlen]) (by rw [hp]; exact hpos)

/-- C18: from a state with `N` slots and `send_push_pos < N`, (a) every
`console_sendf` call reads its slot in bounds, leaves `send_push_pos < N` and
changes no slot other than the one at the old `send_push_pos`; (b) every
sequence of `console_sendf` calls, interleaved with the peer freeing slots,
runs without an out-of-bounds access and ends with `send_push_pos < N`. -/
theorem console_sendf_push_pos_invariant (cfg : Config)
    (command_encodef : List Nat → Nat → command_encoder → List Nat → List Nat × Nat)
    (s : shared_mem)
    (hlen : s.send_data.length = cfg.send_slots)
    (hpos : s.send_push_pos < cfg.send_slots) :
    (∀ (ce : command_encoder) (args : List Nat),
      ∃ s' e, console_sendf cfg command_encodef ce args s = some (s', e)
        ∧ s'.send_push_pos < cfg.send_slots
        ∧ s'.send_data.length = cfg.send_slots
        ∧ ∀ i, i ≠ s.send_push_pos → s'.send_data[i]? = s.send_data[i]?)
    ∧ (∀ steps : List QueueStep,
      ∃ s', run_queue cfg command_encodef steps s = some s'
        ∧ s'.send_push_pos < cfg.send_slots
        ∧ s'.send_data.length = cfg.send_slots) :=
  ⟨fun ce args => console_sendf_step cfg command_encodef ce args s hlen hpos,
   fun steps => run_queue_in_bounds cfg command_encodef steps s hlen hpos⟩

/-- C18 at the concrete two-slot queue with `send_push_pos = 0`: three sends
with the peer freeing both slots in between wrap the position back to 1. -/
theorem console_sendf_push_pos_invariant_witness :
    (sample_full.send_data.length = sample_config.send_slots
      ∧ sample_full.send_push_pos = 0)
    ∧ (∃ s', run_queue sample_config sample_encodef
          [.peer_free 0, .sendf ⟨1, 3⟩ [9, 8, 7], .peer_free 1, .sendf ⟨1, 2⟩ [6, 5],
           .peer_free 0, .sendf ⟨1, 1⟩ [4]] sample_full = some s'
        ∧ s'.send_push_pos < sample_config.send_slots
        ∧ s'.send_data.length = sample_config.send_slots)
    ∧ (run_queue sample_config sample_encodef
          [.peer_free 0, .sendf ⟨1, 3⟩ [9, 8, 7], .peer_free 1, .sendf ⟨1, 2⟩ [6, 5],
           .peer_free 0, .sendf ⟨1, 1⟩ [4]] sample_full).map (fun st => st.send_push_pos)
        = some 1 :=
  ⟨by decide,
   (console_sendf_push_pos_invariant sample_config sample_encodef sample_full
      (by decide) (by decide)).2 _,
   by decide⟩

/-! ## Allocator: termination of the counting loop -/

/-- With `size = 0` and `count = 2^32 - 1` the counting loop never ends from a
cursor at or below `END_MEM`: both tests hold at every iteration. -/
theorem alloc_chunks_loop_spins :
    ∀ (fuel c p : Nat), c < WORD → p ≤ END_MEM →
      alloc_chunks_loop 0 (WORD - 1) fuel c p = none := by
  intro fuel
  have hE : END_MEM = 7936 := by decide
  have hW : WORD = 4294967296 := by decide
  induction fuel with
  | zero => intro c p _ _; rfl
  | succ n ih =>
    intro c p hc hp
    have hmod : (p + 0) % WORD = p := by
      rw [Nat.add_zero]; exact Nat.mod_eq_of_lt (by omega)
    unfold alloc_chunks_loop
    rw [hmod, if_pos ⟨by omega, hp⟩]
    exact ih _ p (Nat.mod_lt _ (by omega)) hp

/-- When `count + 1` does not wrap, the counting loop ends within `count + 2`
tests of its condition, whatever `size` and the cursor are. -/
theorem alloc_chunks_loop_ends_of_count (size count : Nat) (hcount : count + 1 < WORD) :
    ∀ (fuel c p : Nat), c ≤ count + 1 → count + 2 ≤ fuel + c →
      ∃ k, alloc_chunks_loop size count fuel c p = some k := by
  intro fuel
  induction fuel with
  | zero => intro c p h1 h2; omega
  | succ n ih =>
    intro c p h1 h2
    unfold alloc_chunks_loop
    by_cases hcond : c ≤ count ∧ (p + size) % WORD ≤ END_MEM
    · rw [if_pos hcond]
      have hc1 : (c + 1) % WORD = c + 1 := Nat.mod_eq_of_lt (by omega)
      rw [hc1]
      exact ih (c + 1) _ (by omega) (by omega)
    · rw [if_neg hcond]
      exact ⟨c, rfl⟩

/-- C20 (fails on the code): for `size = 0`, `count = 2^32 - 1` and the cursor
at 4096 the counting loop of `alloc_chunks` is still running after any number
of iterations, so `alloc_chunks` neither halts via `shutdown` nor returns. -/
theorem alloc_chunks_zero_size_max_count_spins (fuel : Nat) :
    alloc_chunks fuel 0 (WORD - 1) ⟨4096, fun _ => 255⟩ = .out_of_fuel
    ∧ WORD - 1 < WORD ∧ 4096 ≤ END_MEM := by
  refine ⟨?_, by decide, by decide⟩
  unfold alloc_chunks
  rw [alloc_chunks_loop_spins fuel 0 4096 (by decide) (by decide)]

end Pru
